/-
Verification of the analytics & extraction pipeline of
napgram-plugin-group-analysis.

Shallow embedding of:
  * `calculateBasicStats` and its helpers        (src/utils.ts)
  * `GroupAnalysisService.analyzeGroupMessages`  (src/services/analysis.ts)
  * `MessageStorageService.addToCache`           (src/services/storage.ts)
  * `LLMService.resolveModel` / `selectModel` / `callLLM` (src/services/llm.ts)

Modelling conventions:
  * A JS `Date` is represented by its `getHours()` value (a `Fin 24`; the
    ECMAScript HourFromTime operation always yields 0..23) together with its
    `getTime()` value (an `Int`, milliseconds since the epoch).
  * JS strings are Lean `String`s; `str.length` is modelled by `String.length`.
  * JS numbers produced by `parseFloat(x.toFixed(d))` are modelled as exact
    rationals rounded half-up to `d` decimals (the ToFixed algorithm picks the
    larger candidate on ties, and all values rounded here are nonnegative).
  * A TS `Record<string, T>` built by dynamic insertion is an insertion-ordered
    association list; `Object.values` follows the ECMAScript
    OrdinaryOwnPropertyKeys order: keys that are canonical array indices first,
    in ascending numeric order, then the remaining keys in insertion order.
  * `Array.prototype.sort` is required to be stable by ECMAScript 2019 and the
    output of a stable sort is uniquely determined by the comparator, so the
    in-place sort by descending message count is embedded as a stable
    insertion sort.
  * Network transports (the model-list fetch and the chat completion) and the
    external `js-yaml` decoder are external collaborators; they enter the
    embedding as explicit arguments (oracles), so theorems quantify over all
    of their behaviours.
  * The SVG chart string (`generateActiveHoursChart`) belongs to the rendering
    boundary, which the specification declares out of scope; the report record
    keeps the underlying `activeHoursData` instead.
-/
import Mathlib

/-! # Data model (src/types.ts) -/

/-- A message segment (`MessageSegment` from the SDK): a kind tag and the
`data.text` payload (`el.data?.text || ''` — absent text is the empty
string). -/
structure Element where
  type : String
  text : String
deriving DecidableEq

/-- `StoredMessage` from src/types.ts.  The `timestamp` is represented by its
`getHours()` value (`hour`) and its `getTime()` value (`time`).  The optional
`elements` field defaults to `[]` (`msg.elements || []`). -/
structure StoredMessage where
  id : String
  platform : String
  userId : String
  username : String
  content : String
  hour : Fin 24
  time : Int
  elements : List Element
deriving DecidableEq

/-- `UserStats` from src/types.ts.  `emojiStats` only ever holds the single
key `'emoji'`, so it is represented by that counter (`emojiCount`);
`activeHours` always carries exactly the keys 0..23, so it is a 24-slot
list indexed by hour.  The `avatar` field is never set by the aggregator and
is omitted. -/
structure UserStats where
  userId : String
  nickname : String
  messageCount : Nat
  charCount : Nat
  lastActive : Int
  replyCount : Nat
  atCount : Nat
  emojiCount : Nat
  nightMessages : Nat
  activeHours : List Nat
  avgChars : ℚ
  nightRatio : ℚ
  replyRatio : ℚ
  emojiRatio : ℚ
deriving DecidableEq

/-- `SummaryTopic` from src/types.ts. -/
structure SummaryTopic where
  topic : String
  contributors : List String
  detail : String
deriving DecidableEq

/-- `UserTitle` from src/types.ts. -/
structure UserTitle where
  name : String
  id : String
  title : String
  mbti : String
  reason : String
deriving DecidableEq

/-- `GoldenQuote` from src/types.ts. -/
structure GoldenQuote where
  content : String
  sender : String
  reason : String
deriving DecidableEq

/-- `BasicStatsResult` from src/types.ts; `userStats` is the insertion-ordered
record. -/
structure BasicStatsResult where
  userStats : List (String × UserStats)
  totalChars : Nat
  totalEmojiCount : Nat
  allMessagesText : List String
deriving DecidableEq

/-! # Statistics aggregator (src/utils.ts, `calculateBasicStats`) -/

/-- JS `String.prototype.trim`: strip leading and trailing whitespace. -/
def jsTrim (s : String) : String :=
  ⟨((s.data.dropWhile Char.isWhitespace).reverse.dropWhile
      Char.isWhitespace).reverse⟩

/-- The element loop of `calculateBasicStats`: one left-to-right pass
accumulating `(pureText, replyCount, atCount, emoji)` increments, mirroring
the `if/else if` chain over `el.type`. -/
def scanElements (els : List Element) : String × Nat × Nat × Nat :=
  els.foldl
    (fun acc el =>
      if el.type = "text" then (acc.1 ++ el.text, acc.2.1, acc.2.2.1, acc.2.2.2)
      else if el.type = "reply" then (acc.1, acc.2.1 + 1, acc.2.2.1, acc.2.2.2)
      else if el.type = "at" then (acc.1, acc.2.1, acc.2.2.1 + 1, acc.2.2.2)
      else if el.type = "face" ∨ el.type = "image" then
        (acc.1, acc.2.1, acc.2.2.1, acc.2.2.2 + 1)
      else acc)
    ("", 0, 0, 0)

/-- The `pureText` accumulated by the element loop. -/
def pureTextOf (els : List Element) : String := (scanElements els).1

/-- Reply segments seen by the element loop. -/
def replyEls (els : List Element) : Nat := (scanElements els).2.1

/-- Mention (`at`) segments seen by the element loop. -/
def atEls (els : List Element) : Nat := (scanElements els).2.2.1

/-- Media-emoji (`face` / `image`) segments seen by the element loop. -/
def emojiEls (els : List Element) : Nat := (scanElements els).2.2.2

/-- `pureText.length || msg.content.length`: the number of characters a
message adds to the character counters (0 is falsy, so an empty `pureText`
falls back to the raw content length). -/
def charContrib (m : StoredMessage) : Nat :=
  if (pureTextOf m.elements).length = 0 then m.content.length
  else (pureTextOf m.elements).length

/-- `hour >= 0 && hour < 6` (the hour is a `Fin 24`, hence never negative). -/
def nightContrib (m : StoredMessage) : Nat := if m.hour.val < 6 then 1 else 0

/-- `getInitialUserStats` from src/utils.ts (`new Date(0)` has time 0). -/
def getInitialUserStats (m : StoredMessage) : UserStats where
  userId := m.userId
  nickname := m.username
  messageCount := 0
  charCount := 0
  lastActive := 0
  replyCount := 0
  atCount := 0
  emojiCount := 0
  nightMessages := 0
  activeHours := List.replicate 24 0
  avgChars := 0
  nightRatio := 0
  replyRatio := 0
  emojiRatio := 0

/-- The per-message mutation of one user's counters inside the main loop of
`calculateBasicStats`. -/
def applyMessage (u : UserStats) (m : StoredMessage) : UserStats :=
  { u with
    messageCount := u.messageCount + 1
    lastActive := max u.lastActive m.time
    activeHours :=
      u.activeHours.set m.hour.val (u.activeHours.getD m.hour.val 0 + 1)
    nightMessages := u.nightMessages + nightContrib m
    replyCount := u.replyCount + replyEls m.elements
    atCount := u.atCount + atEls m.elements
    emojiCount := u.emojiCount + emojiEls m.elements
    charCount := u.charCount + charContrib m }

/-- Assignment into the insertion-ordered record: update in place if the key
exists, append otherwise. -/
def upsert : List (String × UserStats) → String → UserStats →
    List (String × UserStats)
  | [], k, v => [(k, v)]
  | (k', v') :: t, k, v =>
    if k' = k then (k, v) :: t else (k', v') :: upsert t k v

/-- Record lookup (`userStats[userId]`). -/
def lookupEntry : List (String × UserStats) → String → Option UserStats
  | [], _ => none
  | (k, v) :: t, uid => if k = uid then some v else lookupEntry t uid

/-- The mutable state of the main loop of `calculateBasicStats`. -/
structure StatsState where
  entries : List (String × UserStats)
  totalChars : Nat
  totalEmojiCount : Nat
  allMessagesText : List String
deriving DecidableEq

def initialStatsState : StatsState := ⟨[], 0, 0, []⟩

/-- One iteration of the `for (const msg of messages)` loop.  A falsy
(empty) `userId` skips the message entirely (`if (!userId) continue`). -/
def processMessage (s : StatsState) (m : StoredMessage) : StatsState :=
  if m.userId = "" then s
  else
    let u0 := (lookupEntry s.entries m.userId).getD (getInitialUserStats m)
    { entries := upsert s.entries m.userId (applyMessage u0 m)
      totalChars := s.totalChars + charContrib m
      totalEmojiCount := s.totalEmojiCount + emojiEls m.elements
      allMessagesText := s.allMessagesText ++
        (if pureTextOf m.elements = "" then []
         else [m.username ++ "(" ++ m.userId ++ "): " ++
               jsTrim (pureTextOf m.elements)]) }

/-- `parseFloat(x.toFixed(1))` on a nonnegative value: round half-up to one
decimal. -/
def roundTo1 (q : ℚ) : ℚ := ((⌊q * 10 + 1 / 2⌋ : ℤ) : ℚ) / 10

/-- `parseFloat(x.toFixed(2))` on a nonnegative value: round half-up to two
decimals. -/
def roundTo2 (q : ℚ) : ℚ := ((⌊q * 100 + 1 / 2⌋ : ℤ) : ℚ) / 100

/-- The ratio-recomputation pass of `calculateBasicStats`
(`stat.messageCount ? … : 0`; note that `emojiRatio` divides the group-wide
`totalEmojiCount` by the user's message count). -/
def setRatios (totalEmojiCount : Nat) (u : UserStats) : UserStats :=
  { u with
    avgChars :=
      if u.messageCount = 0 then 0
      else roundTo1 ((u.charCount : ℚ) / (u.messageCount : ℚ))
    nightRatio :=
      if u.messageCount = 0 then 0
      else roundTo2 ((u.nightMessages : ℚ) / (u.messageCount : ℚ))
    replyRatio :=
      if u.messageCount = 0 then 0
      else roundTo2 ((u.replyCount : ℚ) / (u.messageCount : ℚ))
    emojiRatio :=
      if u.messageCount = 0 then 0
      else roundTo2 ((totalEmojiCount : ℚ) / (u.messageCount : ℚ)) }

/-- `calculateBasicStats` from src/utils.ts. -/
def calculateBasicStats (messages : List StoredMessage) : BasicStatsResult :=
  let s := messages.foldl processMessage initialStatsState
  { userStats := s.entries.map fun p => (p.1, setRatios s.totalEmojiCount p.2)
    totalChars := s.totalChars
    totalEmojiCount := s.totalEmojiCount
    allMessagesText := s.allMessagesText }

/-- Lookup of a user's (ratio-finalised) stats in the aggregation output. -/
def lookupStats (b : BasicStatsResult) (uid : String) : Option UserStats :=
  lookupEntry b.userStats uid

/-! # `Object.values` order and the ranking sort -/

/-- Whether a string is a canonical array-index property key (ECMAScript: the
canonical decimal form of an integer `n` with `0 ≤ n < 2^32 - 1`: all digits,
no leading zero except for `"0"` itself, value below `2^32 - 1`). -/
def canonicalIndex (s : String) : Option Nat :=
  if s.data ≠ [] ∧ s.data.all Char.isDigit ∧
      (s.data.head? = some '0' → s.data = ['0']) then
    let n := s.data.foldl (fun n c => n * 10 + (c.toNat - 48)) 0
    if n < 4294967295 then some n else none
  else none

/-- Numeric value of an array-index key (only used on such keys). -/
def entryIndexKey (p : String × UserStats) : Nat := (canonicalIndex p.1).getD 0

/-- Stable insertion (ascending by array-index value) used to model the
numeric ordering of array-index property keys. -/
def insertEntryAsc (x : String × UserStats) :
    List (String × UserStats) → List (String × UserStats)
  | [] => [x]
  | y :: t =>
    if entryIndexKey y < entryIndexKey x then y :: insertEntryAsc x t
    else x :: y :: t

def sortEntriesAsc : List (String × UserStats) → List (String × UserStats)
  | [] => []
  | x :: t => insertEntryAsc x (sortEntriesAsc t)

/-- ECMAScript OrdinaryOwnPropertyKeys order over the record entries:
array-index keys ascending first, then the remaining keys in insertion
order. -/
def jsOrderedEntries (l : List (String × UserStats)) :
    List (String × UserStats) :=
  sortEntriesAsc (l.filter fun p => (canonicalIndex p.1).isSome)
    ++ l.filter fun p => (canonicalIndex p.1).isNone

/-- `Object.values(userStats)`. -/
def jsValues (b : BasicStatsResult) : List UserStats :=
  (jsOrderedEntries b.userStats).map (·.2)

/-- Stable insertion for `sort((a, b) => b.messageCount - a.messageCount)`:
the new element goes after every earlier element with a strictly larger
count, in front of the first element whose count is not larger. -/
def insertUserDesc (x : UserStats) : List UserStats → List UserStats
  | [] => [x]
  | y :: t =>
    if x.messageCount < y.messageCount then y :: insertUserDesc x t
    else x :: y :: t

/-- The stable descending sort by message count. -/
def sortUsersDesc : List UserStats → List UserStats
  | [] => []
  | x :: t => insertUserDesc x (sortUsersDesc t)

/-! # Report assembly (src/services/analysis.ts) -/

/-- The errors of the error-handling design (§7): transport failure, no
usable model, missing fenced YAML block, YAML decode failure. -/
inductive LLMError
  | transportError (status : Nat) (body : String)
  | noUsableModel
  | missingYamlBlock
  | decodeError (message : String)
deriving DecidableEq

/-- `.catch((error) => … return [])`: an extraction failure is downgraded to
an empty result list at its own call site. -/
def recoverExtraction {α : Type} (r : Except LLMError (List α)) : List α :=
  match r with
  | .ok l => l
  | .error _ => []

/-- `findMostActivePeriod` from src/utils.ts: scan the hour buckets in
ascending order, strict `>` to update the maximum, starting from
`(maxHour, maxCount) = (0, 0)`. -/
def findMostActivePeriod (hours : List Nat) : String :=
  let best := hours.enum.foldl (fun acc hc => if hc.2 > acc.2 then hc else acc) (0, 0)
  toString best.1 ++ ":00-" ++ toString (best.1 + 1) ++ ":00"

/-- The configuration fields `analyzeGroupMessages` reads. -/
structure AnalysisConfig where
  maxUsersInReport : Nat
deriving DecidableEq

/-- `GroupAnalysisResult` from src/types.ts (without the out-of-scope SVG
chart string; `analysisDate` is the caller-supplied clock string). -/
structure GroupAnalysisResult where
  totalMessages : Nat
  totalChars : Nat
  totalParticipants : Nat
  emojiCount : Nat
  mostActiveUser : Option UserStats
  mostActivePeriod : String
  userStats : List UserStats
  topics : List SummaryTopic
  userTitles : List UserTitle
  goldenQuotes : List GoldenQuote
  activeHoursData : List Nat
  analysisDate : String
  groupName : String
deriving DecidableEq

/-- `GroupAnalysisService.analyzeGroupMessages`.  The three LLM extraction
outcomes are passed in as the results of the already-launched tasks (the
`Promise.all` of the three `.catch`-wrapped calls); `now` is the
`new Date().toLocaleString('zh-CN')` value. -/
def analyzeGroupMessages (cfg : AnalysisConfig) (messages : List StoredMessage)
    (groupId : String) (now : String)
    (topicsResult : Except LLMError (List SummaryTopic))
    (titlesResult : Except LLMError (List UserTitle))
    (quotesResult : Except LLMError (List GoldenQuote)) : GroupAnalysisResult :=
  let b := calculateBasicStats messages
  let users := jsValues b
  let allActiveHours :=
    users.foldl (fun acc u => acc.zipWith (· + ·) u.activeHours)
      (List.replicate 24 0)
  let sortedUserStats := (sortUsersDesc users).take cfg.maxUsersInReport
  { totalMessages := messages.length
    totalChars := b.totalChars
    totalParticipants := users.length
    emojiCount := b.totalEmojiCount
    mostActiveUser := sortedUserStats.head?
    mostActivePeriod := findMostActivePeriod allActiveHours
    userStats := sortedUserStats
    topics := recoverExtraction topicsResult
    userTitles := recoverExtraction titlesResult
    goldenQuotes := recoverExtraction quotesResult
    activeHoursData := allActiveHours
    analysisDate := now
    groupName := groupId }

/-- The non-extraction fields of a report (everything the aggregation alone
determines). -/
def reportCore (r : GroupAnalysisResult) :
    Nat × Nat × Nat × Nat × Option UserStats × String × List UserStats ×
      List Nat × String × String :=
  (r.totalMessages, r.totalChars, r.totalParticipants, r.emojiCount,
   r.mostActiveUser, r.mostActivePeriod, r.userStats, r.activeHoursData,
   r.analysisDate, r.groupName)

/-! # Recency cache (src/services/storage.ts) -/

/-- `private readonly cacheSize = 1000`. -/
def cacheSize : Nat := 1000

/-- The cache key: `` `${message.platform}_${message.userId}` ``. -/
def cacheKeyOf (m : StoredMessage) : String := m.platform ++ "_" ++ m.userId

/-- The recency cache, observed through `get` (a missing key reads as `[]`,
matching `this.messageCache.get(cacheKey) || []`). -/
abbrev MessageCache := String → List StoredMessage

def emptyCache : MessageCache := fun _ => []

/-- `MessageStorageService.addToCache`: unshift the new message, then slice
to `cacheSize` when the sequence has grown beyond it. -/
def addToCache (c : MessageCache) (m : StoredMessage) : MessageCache :=
  fun k =>
    if k = cacheKeyOf m then
      let messages := m :: c (cacheKeyOf m)
      if cacheSize < messages.length then messages.take cacheSize else messages
    else c k

/-! # LLM service (src/services/llm.ts) -/

/-- `needle.isInfixOf hay` on character lists (JS `hay.includes(needle)`). -/
def listIsInfixOf (pat : List Char) : List Char → Bool
  | [] => pat.isEmpty
  | c :: t => pat.isPrefixOf (c :: t) || listIsInfixOf pat t

/-- JS `id.includes(target)`. -/
def strIncludes (id target : String) : Bool := listIsInfixOf target.data id.data

/-- JS truthiness of the optional `config.llm.model` (an absent or empty
string does not count as configured). -/
def truthyStr : Option String → Bool
  | none => false
  | some s => !(s == "")

/-- The hard-coded marker preference list of `LLMService.selectModel`. -/
def preferredModels : List String :=
  ["gpt-4o", "gpt-4", "gpt-3.5", "qwen", "glm", "moonshot", "deepseek",
   "claude"]

/-- `LLMService.selectModel`: the configured model if truthy, otherwise the
first advertised identifier containing a preferred marker (markers scanned
in priority order), otherwise the first advertised identifier; `none` when
nothing is advertised. -/
def selectModel (cfgModel : Option String) (available : List String) :
    Option String :=
  if truthyStr cfgModel then cfgModel
  else if available.isEmpty then none
  else
    match preferredModels.findSome?
        (fun target => available.find? (fun id => strIncludes id target)) with
    | some m => some m
    | none => available.head?

/-- The mutable per-instance state of `LLMService`. -/
structure LLMState where
  availableModels : List String
  resolvedModel : Option String
deriving DecidableEq

def initialLLMState : LLMState := ⟨[], none⟩

/-- `LLMService.resolveModel`.  The model-list fetch is an external
collaborator and enters as the oracle `fetch` (`none` for any discovery
failure); the returned `Nat` counts the discovery (model-list) requests the
call performed.  All successful paths memoize into `resolvedModel`. -/
def resolveModel (cfgModel : Option String) (fetch : Option (List String))
    (s : LLMState) : Except LLMError (String × LLMState × Nat) :=
  match s.resolvedModel with
  | some m => .ok (m, s, 0)
  | none =>
    if truthyStr cfgModel then
      .ok (cfgModel.getD "", { s with resolvedModel := cfgModel }, 0)
    else
      let fetchCount := if s.availableModels.isEmpty then 1 else 0
      let fetched : Option (List String) :=
        if s.availableModels.isEmpty then fetch else some s.availableModels
      match fetched with
      | none => .error .noUsableModel
      | some models =>
        match selectModel cfgModel models with
        | some m =>
          if m == "" then .error .noUsableModel
          else
            .ok (m, { availableModels := models, resolvedModel := some m },
              fetchCount)
        | none => .error .noUsableModel

/-- The three backticks that close a fenced block. -/
def tick3 : List Char := "```".data

/-- The opener `` ```yaml `` of the fenced-block pattern `` /```ya?ml/ ``. -/
def yamlOpen : List Char := "```yaml".data

/-- The opener `` ```yml `` of the fenced-block pattern `` /```ya?ml/ ``. -/
def ymlOpen : List Char := "```yml".data

/-- Whether `` ``` `` occurs somewhere in the remaining characters. -/
def hasTick3 : List Char → Bool
  | [] => false
  | c :: t => tick3.isPrefixOf (c :: t) || hasTick3 t

/-- Characters before the first `` ``` `` occurrence. -/
def takeUntilTick3 : List Char → List Char
  | [] => []
  | c :: t => if tick3.isPrefixOf (c :: t) then [] else c :: takeUntilTick3 t

/-- The regex match `` rawContent.match(/```ya?ml\s*([\s\S]*?)\s*```/) ``:
scan for the earliest opener that is followed by a closing `` ``` ``; the
captured group is the text between them, with the surrounding whitespace
absorbed by the two greedy `\s*` anchors. -/
def findYamlAux : List Char → Option String
  | [] => none
  | c :: t =>
    if yamlOpen.isPrefixOf (c :: t) ∧ hasTick3 ((c :: t).drop 7) then
      some (jsTrim ⟨takeUntilTick3 ((c :: t).drop 7)⟩)
    else if ymlOpen.isPrefixOf (c :: t) ∧ hasTick3 ((c :: t).drop 6) then
      some (jsTrim ⟨takeUntilTick3 ((c :: t).drop 6)⟩)
    else findYamlAux t

/-- The fenced-YAML-block extraction applied to the trimmed response. -/
def findYamlBlock (s : String) : Option String := findYamlAux s.data

/-- `LLMService.callLLM`.  The completion transport result enters as the
oracle `completion` (already an `Except`, since `requestChatCompletion`
throws on non-success status); `clean` is the `cleanYamlContent` repair pass
and `decode` the external `js-yaml` loader (which may yield `none`, JS
`null`, for an empty document).  The raw content is trimmed exactly as
`requestChatCompletion` does; an empty content short-circuits to an empty
list before any block matching. -/
def callLLM (α : Type) (completion : Except LLMError String)
    (clean : String → String)
    (decode : String → Except LLMError (Option (List α))) :
    Except LLMError (Option (List α)) :=
  match completion with
  | .error e => .error e
  | .ok content =>
    let rawContent := jsTrim content
    if rawContent = "" then .ok (some [])
    else
      match findYamlBlock rawContent with
      | none => .error .missingYamlBlock
      | some yamlText => decode (clean yamlText)

/-- One public extraction operation (`summarizeTopics` /
`analyzeUserTitles` / `analyzeGoldenQuotes`): `callLLM` followed by
`.then((data) => data ?? [])`. -/
def extractionTask (α : Type) (completion : Except LLMError String)
    (clean : String → String)
    (decode : String → Except LLMError (Option (List α))) :
    Except LLMError (List α) :=
  match callLLM α completion clean decode with
  | .error e => .error e
  | .ok data => .ok (data.getD [])

/-! # Helper lemmas: recency cache -/

theorem take_absorb {α : Type} (n : Nat) (A l : List α) :
    (A ++ l.take n).take n = (A ++ l).take n := by
  rw [List.take_append_eq_append_take, List.take_append_eq_append_take,
    List.take_take, Nat.min_eq_left (Nat.sub_le n A.length)]

theorem addToCache_get_self (c : MessageCache) (m : StoredMessage) :
    addToCache c m (cacheKeyOf m) = (m :: c (cacheKeyOf m)).take cacheSize := by
  unfold addToCache
  rw [if_pos rfl]
  by_cases h : cacheSize < (m :: c (cacheKeyOf m)).length
  · simp only [if_pos h]
  · simp only [if_neg h]
    exact (List.take_of_length_le (Nat.le_of_not_lt h)).symm

theorem addToCache_get_other (c : MessageCache) (m : StoredMessage)
    (k : String) (h : ¬ k = cacheKeyOf m) : addToCache c m k = c k := by
  unfold addToCache
  rw [if_neg h]

theorem foldl_addToCache_get (ms : List StoredMessage) (c : MessageCache)
    (k : String) (hc : ∀ k', (c k').length ≤ cacheSize) :
    (ms.foldl addToCache c) k
      = ((ms.filter fun m => cacheKeyOf m == k).reverse ++ c k).take
          cacheSize := by
  induction ms generalizing c with
  | nil =>
    simp only [List.foldl_nil, List.filter_nil, List.reverse_nil,
      List.nil_append]
    exact (List.take_of_length_le (hc k)).symm
  | cons m ms ih =>
    have hc' : ∀ k', ((addToCache c m) k').length ≤ cacheSize := by
      intro k'
      by_cases hk' : k' = cacheKeyOf m
      · subst hk'
        rw [addToCache_get_self]
        simp [Nat.min_le_left]
      · rw [addToCache_get_other c m k' hk']
        exact hc k'
    rw [List.foldl_cons, ih (addToCache c m) hc']
    by_cases hk : cacheKeyOf m = k
    · subst hk
      rw [addToCache_get_self]
      simp only [List.filter_cons, beq_self_eq_true, if_pos, cond_true,
        List.reverse_cons]
      rw [take_absorb, List.append_assoc, List.singleton_append]
    · rw [addToCache_get_other c m k fun h => hk h.symm]
      have : (cacheKeyOf m == k) = false := beq_eq_false_iff_ne.mpr hk
      simp [List.filter_cons, this]

/-! # Claim C7 -/

/-- C7: starting from the empty cache, after any sequence of `addToCache`
calls every key holds the newest (at most `cacheSize`) messages put for that
key, newest first — equivalently, the reverse of the arrival order truncated
to the capacity — so the stored sequence never exceeds the capacity and
inserting `cacheSize + 1` messages for one key retains exactly the
`cacheSize` newest with the oldest dropped. -/
theorem C7_cache_bounded_newest_first (ms : List StoredMessage) (k : String) :
    (ms.foldl addToCache emptyCache) k
        = ((ms.filter fun m => cacheKeyOf m == k).reverse).take cacheSize
      ∧ ((ms.foldl addToCache emptyCache) k).length ≤ cacheSize := by
  have h := foldl_addToCache_get ms emptyCache k (fun _ => by
    simp [emptyCache])
  rw [show emptyCache k = [] from rfl, List.append_nil] at h
  refine ⟨h, ?_⟩
  rw [h]
  simp [Nat.min_le_left]

/-! # Claim C1 -/

/-- C1: for every message collection and any combination of extraction
outcomes, each failed extraction contributes the empty list, each successful
one contributes exactly its payload, and every non-extraction field of the
report is the same as if all three extractions had succeeded (with any
payloads): failures are isolated and the aggregate report is always
produced. -/
theorem C1_extraction_failures_isolated (cfg : AnalysisConfig)
    (msgs : List StoredMessage) (gid now : String)
    (r1 : Except LLMError (List SummaryTopic))
    (r2 : Except LLMError (List UserTitle))
    (r3 : Except LLMError (List GoldenQuote))
    (t : List SummaryTopic) (u : List UserTitle) (q : List GoldenQuote) :
    (analyzeGroupMessages cfg msgs gid now r1 r2 r3).topics
        = recoverExtraction r1
      ∧ (analyzeGroupMessages cfg msgs gid now r1 r2 r3).userTitles
        = recoverExtraction r2
      ∧ (analyzeGroupMessages cfg msgs gid now r1 r2 r3).goldenQuotes
        = recoverExtraction r3
      ∧ reportCore (analyzeGroupMessages cfg msgs gid now r1 r2 r3)
        = reportCore (analyzeGroupMessages cfg msgs gid now
            (.ok t) (.ok u) (.ok q)) :=
  ⟨rfl, rfl, rfl, rfl⟩

/-! # Helper lemmas: the aggregation record -/

theorem lookupEntry_upsert (l : List (String × UserStats)) (k : String)
    (v : UserStats) (uid : String) :
    lookupEntry (upsert l k v) uid
      = if k = uid then some v else lookupEntry l uid := by
  induction l with
  | nil => simp [upsert, lookupEntry]
  | cons p t ih =>
    obtain ⟨k', v'⟩ := p
    by_cases hk : k' = k
    · subst hk
      rw [show upsert ((k', v') :: t) k' v = (k', v) :: t by
        simp [upsert]]
      by_cases hu : k' = uid
      · simp [lookupEntry, hu]
      · simp [lookupEntry, hu]
    · rw [show upsert ((k', v') :: t) k v = (k', v') :: upsert t k v by
        simp [upsert, hk]]
      by_cases hu : k' = uid
      · subst hu
        have : ¬ k = k' := fun h => hk h.symm
        simp [lookupEntry, this]
      · simp [lookupEntry, hu, ih]

theorem mem_upsert (l : List (String × UserStats)) (k : String) (v : UserStats)
    (p : String × UserStats) (h : p ∈ upsert l k v) : p = (k, v) ∨ p ∈ l := by
  induction l with
  | nil => simpa [upsert] using h
  | cons q t ih =>
    obtain ⟨k', v'⟩ := q
    by_cases hk : k' = k
    · subst hk
      rw [show upsert ((k', v') :: t) k' v = (k', v) :: t by simp [upsert]] at h
      rcases List.mem_cons.mp h with h | h
      · exact Or.inl h
      · exact Or.inr (List.mem_cons_of_mem _ h)
    · rw [show upsert ((k', v') :: t) k v = (k', v') :: upsert t k v by
        simp [upsert, hk]] at h
      rcases List.mem_cons.mp h with h | h
      · exact Or.inr (h ▸ List.mem_cons_self _ _)
      · rcases ih h with h | h
        · exact Or.inl h
        · exact Or.inr (List.mem_cons_of_mem _ h)

theorem lookupEntry_eq_none (l : List (String × UserStats)) (uid : String)
    (h : ∀ p ∈ l, ¬ p.1 = uid) : lookupEntry l uid = none := by
  induction l with
  | nil => rfl
  | cons p t ih =>
    obtain ⟨k, v⟩ := p
    rw [show lookupEntry ((k, v) :: t) uid
        = if k = uid then some v else lookupEntry t uid from rfl]
    rw [if_neg (h (k, v) (List.mem_cons_self _ _)), ih]
    intro q hq
    exact h q (List.mem_cons_of_mem _ hq)

theorem lookupEntry_map (l : List (String × UserStats))
    (f : UserStats → UserStats) (uid : String) :
    lookupEntry (l.map fun p => (p.1, f p.2)) uid
      = (lookupEntry l uid).map f := by
  induction l with
  | nil => rfl
  | cons p t ih =>
    obtain ⟨k, v⟩ := p
    by_cases h : k = uid
    · simp [lookupEntry, h]
    · simp [lookupEntry, h, ih]

/-! # Helper lemmas: the aggregation loop -/

theorem processMessage_skip (s : StatsState) (m : StoredMessage)
    (h : m.userId = "") : processMessage s m = s := by
  simp [processMessage, h]

theorem processMessage_entries (s : StatsState) (m : StoredMessage)
    (h : ¬ m.userId = "") :
    (processMessage s m).entries
      = upsert s.entries m.userId
          (applyMessage
            ((lookupEntry s.entries m.userId).getD (getInitialUserStats m))
            m) := by
  simp [processMessage, h]

theorem processMessage_totalChars (s : StatsState) (m : StoredMessage) :
    (processMessage s m).totalChars
      = s.totalChars + (if m.userId = "" then 0 else charContrib m) := by
  by_cases h : m.userId = "" <;> simp [processMessage, h]

theorem processMessage_totalEmoji (s : StatsState) (m : StoredMessage) :
    (processMessage s m).totalEmojiCount
      = s.totalEmojiCount
        + (if m.userId = "" then 0 else emojiEls m.elements) := by
  by_cases h : m.userId = "" <;> simp [processMessage, h]

theorem foldl_totalChars (msgs : List StoredMessage) (s : StatsState) :
    (msgs.foldl processMessage s).totalChars
      = s.totalChars
        + (msgs.map fun m => if m.userId = "" then 0 else charContrib m).sum := by
  induction msgs generalizing s with
  | nil => simp
  | cons m t ih =>
    rw [List.foldl_cons, ih, processMessage_totalChars]
    simp [Nat.add_assoc]

theorem foldl_totalEmoji (msgs : List StoredMessage) (s : StatsState) :
    (msgs.foldl processMessage s).totalEmojiCount
      = s.totalEmojiCount
        + (msgs.map fun m =>
            if m.userId = "" then 0 else emojiEls m.elements).sum := by
  induction msgs generalizing s with
  | nil => simp
  | cons m t ih =>
    rw [List.foldl_cons, ih, processMessage_totalEmoji]
    simp [Nat.add_assoc]

/-- The evolution of one user's record during the loop, observed through
lookups. -/
def stepUser (uid : String) (ou : Option UserStats) (m : StoredMessage) :
    Option UserStats :=
  if m.userId = uid then
    some (applyMessage (ou.getD (getInitialUserStats m)) m)
  else ou

/-- The same evolution once every processed message is the user's own. -/
def applyOpt (ou : Option UserStats) (m : StoredMessage) : Option UserStats :=
  some (applyMessage (ou.getD (getInitialUserStats m)) m)

theorem lookup_processMessage (s : StatsState) (m : StoredMessage)
    (uid : String) (huid : ¬ uid = "") :
    lookupEntry (processMessage s m).entries uid
      = stepUser uid (lookupEntry s.entries uid) m := by
  by_cases hm : m.userId = ""
  · rw [processMessage_skip s m hm]
    unfold stepUser
    rw [if_neg fun h : m.userId = uid => huid (h ▸ hm)]
  · rw [processMessage_entries s m hm, lookupEntry_upsert]
    unfold stepUser
    by_cases h : m.userId = uid
    · rw [if_pos h, if_pos h, h]
    · rw [if_neg h, if_neg h]

theorem lookup_foldl (msgs : List StoredMessage) (s : StatsState)
    (uid : String) (huid : ¬ uid = "") :
    lookupEntry (msgs.foldl processMessage s).entries uid
      = msgs.foldl (stepUser uid) (lookupEntry s.entries uid) := by
  induction msgs generalizing s with
  | nil => rfl
  | cons m t ih =>
    rw [List.foldl_cons, List.foldl_cons, ih,
      lookup_processMessage s m uid huid]

theorem stepUser_foldl_filter (uid : String) (msgs : List StoredMessage)
    (ou : Option UserStats) :
    msgs.foldl (stepUser uid) ou
      = (msgs.filter fun m => m.userId == uid).foldl applyOpt ou := by
  induction msgs generalizing ou with
  | nil => rfl
  | cons m t ih =>
    by_cases h : m.userId = uid
    · rw [List.foldl_cons,
        show (m :: t).filter (fun m => m.userId == uid)
          = m :: t.filter (fun m => m.userId == uid) by
            simp [List.filter_cons, h],
        List.foldl_cons, ih]
      rw [show stepUser uid ou m = applyOpt ou m by simp [stepUser, applyOpt, h]]
    · rw [List.foldl_cons,
        show (m :: t).filter (fun m => m.userId == uid)
          = t.filter (fun m => m.userId == uid) by
            simp [List.filter_cons, beq_eq_false_iff_ne.mpr h],
        ih]
      rw [show stepUser uid ou m = ou by simp [stepUser, h]]

theorem applyOpt_foldl_some (l : List StoredMessage) (u : UserStats) :
    l.foldl applyOpt (some u) = some (l.foldl applyMessage u) := by
  induction l generalizing u with
  | nil => rfl
  | cons m t ih =>
    rw [List.foldl_cons, List.foldl_cons,
      show applyOpt (some u) m = some (applyMessage u m) from rfl, ih]

theorem applyOpt_foldl_none (l : List StoredMessage) :
    l.foldl applyOpt none
      = match l with
        | [] => none
        | x :: xs => some ((x :: xs).foldl applyMessage
            (getInitialUserStats x)) := by
  cases l with
  | nil => rfl
  | cons x xs =>
    show xs.foldl applyOpt (applyOpt none x)
      = some ((x :: xs).foldl applyMessage (getInitialUserStats x))
    rw [show applyOpt none x
        = some (applyMessage (getInitialUserStats x) x) from rfl,
      applyOpt_foldl_some, List.foldl_cons]

/-- The lookup of a user in the aggregation output, decomposed: ratios are
set over the fold of that user's own messages. -/
theorem lookupStats_decomposed (msgs : List StoredMessage) (uid : String)
    (huid : ¬ uid = "") :
    lookupStats (calculateBasicStats msgs) uid
      = ((msgs.filter fun m => m.userId == uid).foldl applyOpt none).map
          (setRatios
            (msgs.foldl processMessage initialStatsState).totalEmojiCount) := by
  unfold lookupStats calculateBasicStats
  rw [lookupEntry_map, lookup_foldl msgs initialStatsState uid huid,
    show lookupEntry initialStatsState.entries uid = none from rfl,
    stepUser_foldl_filter]

/-! # Helper lemmas: counters of the per-user fold -/

theorem foldl_applyMessage_messageCount (l : List StoredMessage)
    (u : UserStats) :
    (l.foldl applyMessage u).messageCount = u.messageCount + l.length := by
  induction l generalizing u with
  | nil => simp
  | cons m t ih =>
    rw [List.foldl_cons, ih,
      show (applyMessage u m).messageCount = u.messageCount + 1 from rfl]
    simp
    omega

theorem foldl_applyMessage_charCount (l : List StoredMessage) (u : UserStats) :
    (l.foldl applyMessage u).charCount
      = u.charCount + (l.map charContrib).sum := by
  induction l generalizing u with
  | nil => simp
  | cons m t ih =>
    rw [List.foldl_cons, ih,
      show (applyMessage u m).charCount
        = u.charCount + charContrib m from rfl]
    simp [Nat.add_assoc]

theorem foldl_applyMessage_replyCount (l : List StoredMessage)
    (u : UserStats) :
    (l.foldl applyMessage u).replyCount
      = u.replyCount + (l.map fun m => replyEls m.elements).sum := by
  induction l generalizing u with
  | nil => simp
  | cons m t ih =>
    rw [List.foldl_cons, ih,
      show (applyMessage u m).replyCount
        = u.replyCount + replyEls m.elements from rfl]
    simp [Nat.add_assoc]

theorem foldl_applyMessage_atCount (l : List StoredMessage) (u : UserStats) :
    (l.foldl applyMessage u).atCount
      = u.atCount + (l.map fun m => atEls m.elements).sum := by
  induction l generalizing u with
  | nil => simp
  | cons m t ih =>
    rw [List.foldl_cons, ih,
      show (applyMessage u m).atCount
        = u.atCount + atEls m.elements from rfl]
    simp [Nat.add_assoc]

theorem foldl_applyMessage_emojiCount (l : List StoredMessage)
    (u : UserStats) :
    (l.foldl applyMessage u).emojiCount
      = u.emojiCount + (l.map fun m => emojiEls m.elements).sum := by
  induction l generalizing u with
  | nil => simp
  | cons m t ih =>
    rw [List.foldl_cons, ih,
      show (applyMessage u m).emojiCount
        = u.emojiCount + emojiEls m.elements from rfl]
    simp [Nat.add_assoc]

theorem foldl_applyMessage_nightMessages (l : List StoredMessage)
    (u : UserStats) :
    (l.foldl applyMessage u).nightMessages
      = u.nightMessages + (l.map nightContrib).sum := by
  induction l generalizing u with
  | nil => simp
  | cons m t ih =>
    rw [List.foldl_cons, ih,
      show (applyMessage u m).nightMessages
        = u.nightMessages + nightContrib m from rfl]
    simp [Nat.add_assoc]

theorem foldl_applyMessage_lastActive (l : List StoredMessage)
    (u : UserStats) :
    (l.foldl applyMessage u).lastActive
      = (l.map (fun m => m.time)).foldl max u.lastActive := by
  induction l generalizing u with
  | nil => rfl
  | cons m t ih =>
    rw [List.foldl_cons, ih,
      show (applyMessage u m).lastActive = max u.lastActive m.time from rfl]
    rfl

/-! # Helper lemmas: hour buckets -/

theorem getD_set_bump (l : List Nat) (h : Nat) (hh : h < l.length) (j : Nat) :
    (l.set h (l.getD h 0 + 1)).getD j 0
      = l.getD j 0 + (if j = h then 1 else 0) := by
  induction l generalizing h j with
  | nil => simp at hh
  | cons x t ih =>
    cases h with
    | zero =>
      cases j with
      | zero => simp
      | succ j => simp
    | succ h =>
      cases j with
      | zero => simp
      | succ j =>
        simp only [List.set_cons_succ, List.getD_cons_succ]
        rw [ih h (by simpa using hh) j]
        by_cases hj : j = h
        · simp [hj]
        · simp [hj, fun hh : j + 1 = h + 1 => hj (Nat.succ_injective hh)]

theorem sum_set_bump (l : List Nat) (h : Nat) (hh : h < l.length) :
    (l.set h (l.getD h 0 + 1)).sum = l.sum + 1 := by
  induction l generalizing h with
  | nil => simp at hh
  | cons x t ih =>
    cases h with
    | zero => simp [Nat.add_assoc, Nat.add_comm, Nat.add_left_comm]
    | succ h =>
      simp only [List.set_cons_succ, List.getD_cons_succ, List.sum_cons]
      rw [ih h (by simpa using hh)]
      omega

theorem take_set_lt {α : Type} (l : List α) (i : Nat) (v : α) (n : Nat)
    (h : i < n) : (l.set i v).take n = (l.take n).set i v := by
  induction l generalizing i n with
  | nil => simp
  | cons x t ih =>
    cases n with
    | zero => simp at h
    | succ n =>
      cases i with
      | zero => simp
      | succ i =>
        simp only [List.set_cons_succ, List.take_succ_cons]
        rw [ih i n (by omega)]

theorem take_set_ge {α : Type} (l : List α) (i : Nat) (v : α) (n : Nat)
    (h : n ≤ i) : (l.set i v).take n = l.take n := by
  induction l generalizing i n with
  | nil => simp
  | cons x t ih =>
    cases n with
    | zero => simp
    | succ n =>
      cases i with
      | zero => omega
      | succ i =>
        simp only [List.set_cons_succ, List.take_succ_cons]
        rw [ih i n (by omega)]

theorem getD_take {α : Type} (l : List α) (d : α) (n i : Nat) (h : i < n) :
    (l.take n).getD i d = l.getD i d := by
  induction l generalizing n i with
  | nil => simp
  | cons x t ih =>
    cases n with
    | zero => omega
    | succ n =>
      cases i with
      | zero => simp
      | succ i =>
        simp only [List.take_succ_cons, List.getD_cons_succ]
        exact ih n i (by omega)

theorem foldl_applyMessage_activeHours_length (l : List StoredMessage)
    (u : UserStats) :
    (l.foldl applyMessage u).activeHours.length = u.activeHours.length := by
  induction l generalizing u with
  | nil => rfl
  | cons m t ih =>
    rw [List.foldl_cons, ih]
    simp [applyMessage]

theorem foldl_applyMessage_activeHours_getD (l : List StoredMessage)
    (u : UserStats) (hu : u.activeHours.length = 24) (i : Nat) :
    (l.foldl applyMessage u).activeHours.getD i 0
      = u.activeHours.getD i 0 + l.countP (fun m => m.hour.val == i) := by
  induction l generalizing u with
  | nil => simp
  | cons m t ih =>
    rw [List.foldl_cons, ih _ (by simp [applyMessage, hu]),
      show (applyMessage u m).activeHours
        = u.activeHours.set m.hour.val (u.activeHours.getD m.hour.val 0 + 1)
        from rfl,
      getD_set_bump _ _ (by rw [hu]; exact m.hour.isLt) i,
      List.countP_cons]
    by_cases h : m.hour.val = i
    · simp [h]
      omega
    · have : ¬ i = m.hour.val := fun hh => h hh.symm
      simp [this, beq_eq_false_iff_ne.mpr h]

/-! # Helper lemmas: keys of the record are the (non-empty) user ids -/

theorem entries_keys_ne_empty (msgs : List StoredMessage) (s : StatsState)
    (hs : ∀ p ∈ s.entries, ¬ p.1 = "") :
    ∀ p ∈ (msgs.foldl processMessage s).entries, ¬ p.1 = "" := by
  induction msgs generalizing s with
  | nil => exact hs
  | cons m t ih =>
    rw [List.foldl_cons]
    refine ih (processMessage s m) ?_
    intro p hp
    by_cases hm : m.userId = ""
    · rw [processMessage_skip s m hm] at hp
      exact hs p hp
    · rw [processMessage_entries s m hm] at hp
      rcases mem_upsert _ _ _ p hp with h | h
      · rw [h]
        exact hm
      · exact hs p h

theorem lookupStats_empty_uid (msgs : List StoredMessage) :
    lookupStats (calculateBasicStats msgs) "" = none := by
  unfold lookupStats calculateBasicStats
  rw [lookupEntry_map, lookupEntry_eq_none]
  · rfl
  exact entries_keys_ne_empty msgs initialStatsState (by simp [initialStatsState])

/-! # Claim C10 -/

/-- C10: a message whose sender id is the empty string is skipped entirely:
the aggregation output (user records, totals, rendered text lines) over any
message list containing it equals the output with it removed, while the
report's `totalMessages` still counts it (so `totalMessages` can exceed the
sum of per-user message counts). -/
theorem C10_empty_sender_skipped (pre post : List StoredMessage)
    (m : StoredMessage) (cfg : AnalysisConfig) (gid now : String)
    (r1 : Except LLMError (List SummaryTopic))
    (r2 : Except LLMError (List UserTitle))
    (r3 : Except LLMError (List GoldenQuote)) (h : m.userId = "") :
    calculateBasicStats (pre ++ m :: post) = calculateBasicStats (pre ++ post)
      ∧ (analyzeGroupMessages cfg (pre ++ m :: post) gid now r1 r2 r3).totalMessages
        = (pre ++ post).length + 1 := by
  have key : (pre ++ m :: post).foldl processMessage initialStatsState
      = (pre ++ post).foldl processMessage initialStatsState := by
    rw [List.foldl_append, List.foldl_append, List.foldl_cons,
      processMessage_skip _ m h]
  constructor
  · unfold calculateBasicStats
    rw [key]
  · show (pre ++ m :: post).length = (pre ++ post).length + 1
    simp
    omega

/-! # Claim C5 (corrected) -/

/-- The group character total of a singleton aggregation run over a message
with structured segments but no text segment: the raw content length is
counted even though segments are present, refuting the claim that the
raw-content fallback happens exactly when no segments are present. -/
def c5Msg : StoredMessage :=
  { id := "m0", platform := "qq", userId := "a", username := "A",
    content := "hi", hour := 1, time := 0, elements := [⟨"image", ""⟩] }

/-- C5 counterexample: `c5Msg` carries a (non-text) structured segment, its
concatenated text-segment content is empty, and the aggregator counts its raw
content length 2 — not the text-segment length 0 the claim requires for a
segment-bearing message. -/
theorem C5_counterexample :
    c5Msg.elements ≠ []
      ∧ pureTextOf c5Msg.elements = ""
      ∧ (calculateBasicStats [c5Msg]).totalChars = 2
      ∧ ¬ (calculateBasicStats [c5Msg]).totalChars
          = (pureTextOf c5Msg.elements).length := by
  decide

/-- The `charCount` recorded for a user in the aggregation output (0 when
the user is absent). -/
def userCharCount (msgs : List StoredMessage) (uid : String) : Nat :=
  ((lookupStats (calculateBasicStats msgs) uid).map
    (fun u => u.charCount)).getD 0

theorem userCharCount_eq (msgs : List StoredMessage) (uid : String) :
    userCharCount msgs uid
      = ((lookupEntry
            (msgs.foldl processMessage initialStatsState).entries uid).map
          (fun u => u.charCount)).getD 0 := by
  unfold userCharCount lookupStats calculateBasicStats
  rw [lookupEntry_map]
  cases lookupEntry (msgs.foldl processMessage initialStatsState).entries uid
    <;> rfl

/-- C5 (amended): processing one more message adds to the group's and the
sender's character counts the concatenated text-segment length when that is
nonzero, and the raw `content` length otherwise — i.e. the raw-content
fallback applies exactly when the concatenated text-segment content is
empty, which includes (but is not limited to) messages without segments. -/
theorem C5_char_count_fallback (msgs : List StoredMessage)
    (m : StoredMessage) (h : ¬ m.userId = "") :
    (calculateBasicStats (msgs ++ [m])).totalChars
        = (calculateBasicStats msgs).totalChars
          + (if (pureTextOf m.elements).length = 0 then m.content.length
             else (pureTextOf m.elements).length)
      ∧ userCharCount (msgs ++ [m]) m.userId
        = userCharCount msgs m.userId
          + (if (pureTextOf m.elements).length = 0 then m.content.length
             else (pureTextOf m.elements).length) := by
  have hfold : (msgs ++ [m]).foldl processMessage initialStatsState
      = processMessage (msgs.foldl processMessage initialStatsState) m := by
    rw [List.foldl_append, List.foldl_cons, List.foldl_nil]
  have hcontrib :
      (if (pureTextOf m.elements).length = 0 then m.content.length
       else (pureTextOf m.elements).length) = charContrib m := rfl
  rw [hcontrib]
  constructor
  · show ((msgs ++ [m]).foldl processMessage initialStatsState).totalChars
      = (msgs.foldl processMessage initialStatsState).totalChars
        + charContrib m
    rw [hfold, processMessage_totalChars, if_neg h]
  · rw [userCharCount_eq, userCharCount_eq, hfold,
      lookup_processMessage _ m m.userId h,
      show stepUser m.userId
          (lookupEntry (msgs.foldl processMessage initialStatsState).entries
            m.userId) m
        = some (applyMessage
            ((lookupEntry (msgs.foldl processMessage initialStatsState).entries
              m.userId).getD (getInitialUserStats m)) m) by
        simp [stepUser]]
    cases lookupEntry (msgs.foldl processMessage initialStatsState).entries
      m.userId with
    | none =>
      show (applyMessage (getInitialUserStats m) m).charCount = 0 + charContrib m
      rw [show (applyMessage (getInitialUserStats m) m).charCount
          = (getInitialUserStats m).charCount + charContrib m from rfl]
      rfl
    | some v =>
      show (applyMessage v m).charCount = v.charCount + charContrib m
      rfl

/-! # Claim C9 -/

theorem applyOpt_foldl_cons (x : StoredMessage) (xs : List StoredMessage) :
    (x :: xs).foldl applyOpt none
      = some ((x :: xs).foldl applyMessage (getInitialUserStats x)) :=
  applyOpt_foldl_none (x :: xs)

theorem foldl_applyMessage_activeHours_sum (l : List StoredMessage)
    (u : UserStats) (hu : u.activeHours.length = 24) :
    (l.foldl applyMessage u).activeHours.sum
      = u.activeHours.sum + l.length := by
  induction l generalizing u with
  | nil => simp
  | cons m t ih =>
    rw [List.foldl_cons, ih _ (by simp [applyMessage, hu]),
      show (applyMessage u m).activeHours
        = u.activeHours.set m.hour.val (u.activeHours.getD m.hour.val 0 + 1)
        from rfl,
      sum_set_bump _ _ (by rw [hu]; exact m.hour.isLt)]
    simp
    omega

theorem foldl_applyMessage_night_eq_take (l : List StoredMessage)
    (u : UserStats) (hu : u.activeHours.length = 24)
    (hn : u.nightMessages = (u.activeHours.take 6).sum) :
    (l.foldl applyMessage u).nightMessages
      = ((l.foldl applyMessage u).activeHours.take 6).sum := by
  induction l generalizing u with
  | nil => exact hn
  | cons m t ih =>
    rw [List.foldl_cons]
    refine ih (applyMessage u m) (by simp [applyMessage, hu]) ?_
    show u.nightMessages + nightContrib m
      = ((u.activeHours.set m.hour.val
          (u.activeHours.getD m.hour.val 0 + 1)).take 6).sum
    by_cases hh : m.hour.val < 6
    · rw [take_set_lt _ _ _ _ hh,
        show u.activeHours.getD m.hour.val 0
          = (u.activeHours.take 6).getD m.hour.val 0 from
          (getD_take u.activeHours 0 6 m.hour.val hh).symm,
        sum_set_bump _ _ (by
          rw [List.length_take, hu]
          simpa using hh),
        ← hn, nightContrib, if_pos hh]
    · rw [take_set_ge _ _ _ _ (Nat.le_of_not_lt hh), ← hn, nightContrib,
        if_neg hh]
      omega

/-- C9: every user record that aggregation produces has a 24-slot hour
histogram whose total equals the user's message count, with the night
counter equal to the total of the hour-0..5 slots. -/
theorem C9_active_hours_invariants (msgs : List StoredMessage) (uid : String)
    (u : UserStats) (h : lookupStats (calculateBasicStats msgs) uid = some u) :
    u.activeHours.length = 24
      ∧ u.activeHours.sum = u.messageCount
      ∧ u.nightMessages = (u.activeHours.take 6).sum := by
  by_cases huid : uid = ""
  · rw [huid, lookupStats_empty_uid] at h
    exact absurd h (by simp)
  · rw [lookupStats_decomposed msgs uid huid] at h
    cases hl : msgs.filter (fun m => m.userId == uid) with
    | nil =>
      rw [hl] at h
      exact absurd h (by simp [applyOpt_foldl_none])
    | cons x xs =>
      rw [hl, applyOpt_foldl_cons] at h
      rw [show Option.map
            (setRatios (List.foldl processMessage initialStatsState msgs).totalEmojiCount)
            (some (List.foldl applyMessage (getInitialUserStats x) (x :: xs)))
          = some (setRatios
              (List.foldl processMessage initialStatsState msgs).totalEmojiCount
              (List.foldl applyMessage (getInitialUserStats x) (x :: xs)))
          from rfl] at h
      have hu : u = setRatios
          (msgs.foldl processMessage initialStatsState).totalEmojiCount
          ((x :: xs).foldl applyMessage (getInitialUserStats x)) :=
        (Option.some.injEq _ _ ▸ h).symm
      have hah : u.activeHours
          = ((x :: xs).foldl applyMessage (getInitialUserStats x)).activeHours := by
        rw [hu]; rfl
      have hmc : u.messageCount
          = ((x :: xs).foldl applyMessage (getInitialUserStats x)).messageCount := by
        rw [hu]; rfl
      have hnm : u.nightMessages
          = ((x :: xs).foldl applyMessage (getInitialUserStats x)).nightMessages := by
        rw [hu]; rfl
      have hinitlen : (getInitialUserStats x).activeHours.length = 24 := by
        simp [getInitialUserStats]
      refine ⟨?_, ?_, ?_⟩
      · rw [hah, foldl_applyMessage_activeHours_length]
        exact hinitlen
      · rw [hah, hmc, foldl_applyMessage_activeHours_sum _ _ hinitlen,
          foldl_applyMessage_messageCount]
        simp [getInitialUserStats]
      · rw [hah, hnm]
        exact foldl_applyMessage_night_eq_take _ _ hinitlen (by
          simp [getInitialUserStats])

def c9Msg : StoredMessage :=
  { id := "m0", platform := "qq", userId := "a", username := "A",
    content := "hello", hour := 2, time := 0, elements := [] }

def c9User : UserStats :=
  (lookupStats (calculateBasicStats [c9Msg]) "a").getD
    (getInitialUserStats c9Msg)

/-- Witness for C9 at a concrete input. -/
theorem C9_witness :
    lookupStats (calculateBasicStats [c9Msg]) "a" = some c9User
      ∧ (c9User.activeHours.length = 24
          ∧ c9User.activeHours.sum = c9User.messageCount
          ∧ c9User.nightMessages = (c9User.activeHours.take 6).sum) :=
  ⟨rfl, C9_active_hours_invariants [c9Msg] "a" c9User rfl⟩

/-! # Claim C2 (corrected) -/

theorem roundTo2_eq_zero_iff (q : ℚ) (hq : 0 ≤ q) :
    roundTo2 q = 0 ↔ q < 1 / 200 := by
  unfold roundTo2
  rw [div_eq_zero_iff]
  constructor
  · intro h
    rcases h with h | h
    · have hfloor : ⌊q * 100 + 1 / 2⌋ = 0 := by exact_mod_cast h
      have := (Int.floor_eq_zero_iff.mp hfloor).2
      linarith
    · exact absurd h (by norm_num)
  · intro h
    left
    have hfloor : ⌊q * 100 + 1 / 2⌋ = 0 := by
      rw [Int.floor_eq_zero_iff]
      constructor
      · linarith
      · linarith
    exact_mod_cast hfloor

theorem lookupStats_messageCount_pos (msgs : List StoredMessage)
    (uid : String) (u : UserStats)
    (h : lookupStats (calculateBasicStats msgs) uid = some u) :
    0 < u.messageCount
      ∧ u.emojiRatio
        = roundTo2 (((calculateBasicStats msgs).totalEmojiCount : ℚ)
            / (u.messageCount : ℚ)) := by
  by_cases huid : uid = ""
  · rw [huid, lookupStats_empty_uid] at h
    exact absurd h (by simp)
  · rw [lookupStats_decomposed msgs uid huid] at h
    cases hl : msgs.filter (fun m => m.userId == uid) with
    | nil =>
      rw [hl] at h
      exact absurd h (by simp [applyOpt_foldl_none])
    | cons x xs =>
      rw [hl, applyOpt_foldl_cons] at h
      rw [show Option.map
            (setRatios
              (List.foldl processMessage initialStatsState msgs).totalEmojiCount)
            (some (List.foldl applyMessage (getInitialUserStats x) (x :: xs)))
          = some (setRatios
              (List.foldl processMessage initialStatsState msgs).totalEmojiCount
              (List.foldl applyMessage (getInitialUserStats x) (x :: xs)))
          from rfl] at h
      have hu : u = setRatios
          (msgs.foldl processMessage initialStatsState).totalEmojiCount
          ((x :: xs).foldl applyMessage (getInitialUserStats x)) :=
        (Option.some.injEq _ _ ▸ h).symm
      have hmc : u.messageCount
          = ((x :: xs).foldl applyMessage (getInitialUserStats x)).messageCount := by
        rw [hu]; rfl
      have hpos : 0 < u.messageCount := by
        rw [hmc, foldl_applyMessage_messageCount]
        simp [getInitialUserStats]
      refine ⟨hpos, ?_⟩
      have hne : ¬ ((x :: xs).foldl applyMessage
          (getInitialUserStats x)).messageCount = 0 := by
        rw [← hmc]
        omega
      rw [hu]
      show (if ((x :: xs).foldl applyMessage (getInitialUserStats x)).messageCount
            = 0 then (0:ℚ)
          else roundTo2
            (((msgs.foldl processMessage initialStatsState).totalEmojiCount : ℚ)
              / (((x :: xs).foldl applyMessage
                  (getInitialUserStats x)).messageCount : ℚ)))
        = _
      rw [if_neg hne]
      rfl

/-- C2 (amended): every user record in the aggregation output carries
`emojiRatio = roundTo2(groupEmojiTotal / ownMessageCount)` — the group-wide
emoji total divided by the user's own message count — but the rounded value
is zero, not nonzero, whenever that quotient is below 0.005; so a user with
zero media-emoji messages gets a nonzero ratio only when the group total is
large enough relative to their message count. -/
theorem C2_emoji_ratio_group_total (msgs : List StoredMessage) (uid : String)
    (u : UserStats) (h : lookupStats (calculateBasicStats msgs) uid = some u) :
    u.emojiRatio
        = roundTo2 (((calculateBasicStats msgs).totalEmojiCount : ℚ)
            / (u.messageCount : ℚ))
      ∧ (u.emojiRatio = 0
          ↔ ((calculateBasicStats msgs).totalEmojiCount : ℚ)
              / (u.messageCount : ℚ) < 1 / 200) := by
  obtain ⟨-, hratio⟩ := lookupStats_messageCount_pos msgs uid u h
  refine ⟨hratio, ?_⟩
  rw [hratio]
  exact roundTo2_eq_zero_iff _ (by positivity)

theorem filter_replicate_pos {α : Type} (p : α → Bool) (a : α) (n : Nat)
    (h : p a = true) : (List.replicate n a).filter p = List.replicate n a := by
  induction n with
  | zero => rfl
  | succ n ih => simp [List.replicate_succ, List.filter_cons, h, ih]

/-- A group with one emoji-bearing message from user `a` and 201 plain
messages from user `b`. -/
def c2MsgA : StoredMessage :=
  { id := "m0", platform := "qq", userId := "a", username := "Alice",
    content := "x", hour := 12, time := 0, elements := [⟨"face", ""⟩] }

def c2MsgB : StoredMessage :=
  { id := "m1", platform := "qq", userId := "b", username := "Bob",
    content := "x", hour := 12, time := 0, elements := [] }

def c2CexMessages : List StoredMessage :=
  c2MsgA :: List.replicate 201 c2MsgB

set_option maxRecDepth 8000 in
/-- C2 counterexample: the group emoji total is positive (1) and user `b`
sent zero media-emoji messages, yet `b`'s emoji ratio is 0 — because
`(1 / 201).toFixed(2)` rounds to zero — refuting the claim that the ratio is
nonzero for such a user. -/
theorem C2_counterexample :
    (calculateBasicStats c2CexMessages).totalEmojiCount = 1
      ∧ (lookupStats (calculateBasicStats c2CexMessages) "b").map
          (fun u => (u.emojiCount, u.messageCount, u.emojiRatio))
        = some (0, 201, 0) := by
  have hA : emojiEls c2MsgA.elements = 1 := rfl
  have hB : emojiEls c2MsgB.elements = 0 := rfl
  have htotal : (calculateBasicStats c2CexMessages).totalEmojiCount = 1 := by
    show (c2CexMessages.foldl processMessage initialStatsState).totalEmojiCount
      = 1
    rw [foldl_totalEmoji]
    show 0 + ((c2MsgA :: List.replicate 201 c2MsgB).map
      (fun m => if m.userId = "" then 0 else emojiEls m.elements)).sum = 1
    rw [List.map_cons, List.map_replicate]
    rw [show (if c2MsgA.userId = "" then 0 else emojiEls c2MsgA.elements) = 1
        from rfl,
      show (if c2MsgB.userId = "" then 0 else emojiEls c2MsgB.elements) = 0
        from rfl]
    simp
  refine ⟨htotal, ?_⟩
  have hfilter : c2CexMessages.filter (fun m => m.userId == "b")
      = List.replicate 201 c2MsgB := by
    show (c2MsgA :: List.replicate 201 c2MsgB).filter
        (fun m => m.userId == "b") = _
    rw [List.filter_cons]
    rw [show (c2MsgA.userId == "b") = false from rfl]
    simp only [Bool.false_eq_true, if_false]
    exact filter_replicate_pos _ _ 201 rfl
  have hcons : List.replicate 201 c2MsgB = c2MsgB :: List.replicate 200 c2MsgB :=
    rfl
  rw [lookupStats_decomposed c2CexMessages "b" (by decide), hfilter, hcons,
    applyOpt_foldl_cons]
  set v := (c2MsgB :: List.replicate 200 c2MsgB).foldl applyMessage
    (getInitialUserStats c2MsgB) with hv
  have hmc : v.messageCount = 201 := by
    rw [hv, foldl_applyMessage_messageCount]
    simp [getInitialUserStats]
  have hec : v.emojiCount = 0 := by
    rw [hv, foldl_applyMessage_emojiCount, List.map_cons, List.map_replicate,
      hB]
    simp [getInitialUserStats]
  have htotal' : (c2CexMessages.foldl processMessage
      initialStatsState).totalEmojiCount = 1 := htotal
  show some ((fun u => (u.emojiCount, u.messageCount, u.emojiRatio))
      (setRatios
        (c2CexMessages.foldl processMessage initialStatsState).totalEmojiCount
        v))
    = some (0, 201, 0)
  have h1 : (setRatios
      (c2CexMessages.foldl processMessage initialStatsState).totalEmojiCount
      v).emojiCount = 0 := hec
  have h2 : (setRatios
      (c2CexMessages.foldl processMessage initialStatsState).totalEmojiCount
      v).messageCount = 201 := hmc
  have h3 : (setRatios
      (c2CexMessages.foldl processMessage initialStatsState).totalEmojiCount
      v).emojiRatio = 0 := by
    show (if v.messageCount = 0 then (0:ℚ)
        else roundTo2
          (((c2CexMessages.foldl processMessage
              initialStatsState).totalEmojiCount : ℚ)
            / (v.messageCount : ℚ))) = 0
    rw [if_neg (by omega), htotal', hmc]
    rw [show ((1:Nat):ℚ) = 1 by norm_num, show ((201:Nat):ℚ) = 201 by norm_num]
    exact (roundTo2_eq_zero_iff _ (by norm_num)).mpr (by norm_num)
  simp only [h1, h2, h3]

def c2wUser : UserStats :=
  (lookupStats (calculateBasicStats [c2MsgA]) "a").getD
    (getInitialUserStats c2MsgA)

/-- Witness for the amended C2 theorem at a concrete input. -/
theorem C2_witness :
    lookupStats (calculateBasicStats [c2MsgA]) "a" = some c2wUser
      ∧ (c2wUser.emojiRatio
          = roundTo2 (((calculateBasicStats [c2MsgA]).totalEmojiCount : ℚ)
              / (c2wUser.messageCount : ℚ))
        ∧ (c2wUser.emojiRatio = 0
            ↔ ((calculateBasicStats [c2MsgA]).totalEmojiCount : ℚ)
                / (c2wUser.messageCount : ℚ) < 1 / 200)) :=
  ⟨rfl, C2_emoji_ratio_group_total [c2MsgA] "a" c2wUser rfl⟩

/-! # Claim C8 -/

/-- The order-insensitive observables of a user record: all counters
(message, character, reply, mention, media-emoji, night, per-hour) and all
derived ratios — the fields claimed invariant under permutation (the
`nickname` and `lastActive` bookkeeping fields are not part of the claim). -/
def observedStats (u : UserStats) :
    Nat × Nat × Nat × Nat × Nat × Nat × List Nat × ℚ × ℚ × ℚ × ℚ :=
  (u.messageCount, u.charCount, u.replyCount, u.atCount, u.emojiCount,
   u.nightMessages, u.activeHours, u.avgChars, u.nightRatio, u.replyRatio,
   u.emojiRatio)

theorem observed_setRatios_eq (tE : Nat) (v w : UserStats)
    (h1 : v.messageCount = w.messageCount) (h2 : v.charCount = w.charCount)
    (h3 : v.replyCount = w.replyCount) (h4 : v.atCount = w.atCount)
    (h5 : v.emojiCount = w.emojiCount) (h6 : v.nightMessages = w.nightMessages)
    (h7 : v.activeHours = w.activeHours) :
    observedStats (setRatios tE v) = observedStats (setRatios tE w) := by
  unfold observedStats setRatios
  simp only [h1, h2, h3, h4, h5, h6, h7]

/-- C8: aggregation totals, per-user counters, and per-user derived ratios
are invariant under any permutation of the input messages; only
order-dependent artifacts (entry order, rendered lines, nicknames,
tie-broken rankings) may differ. -/
theorem C8_permutation_invariant (msgs msgs' : List StoredMessage)
    (hp : msgs.Perm msgs') :
    msgs.length = msgs'.length
      ∧ (calculateBasicStats msgs).totalChars
        = (calculateBasicStats msgs').totalChars
      ∧ (calculateBasicStats msgs).totalEmojiCount
        = (calculateBasicStats msgs').totalEmojiCount
      ∧ ∀ uid, (lookupStats (calculateBasicStats msgs) uid).map observedStats
          = (lookupStats (calculateBasicStats msgs') uid).map observedStats := by
  have htE : (calculateBasicStats msgs).totalEmojiCount
      = (calculateBasicStats msgs').totalEmojiCount := by
    show (msgs.foldl processMessage initialStatsState).totalEmojiCount
      = (msgs'.foldl processMessage initialStatsState).totalEmojiCount
    rw [foldl_totalEmoji, foldl_totalEmoji,
      (hp.map fun m => if m.userId = "" then 0 else emojiEls m.elements).sum_eq]
  refine ⟨hp.length_eq, ?_, htE, ?_⟩
  · show (msgs.foldl processMessage initialStatsState).totalChars
      = (msgs'.foldl processMessage initialStatsState).totalChars
    rw [foldl_totalChars, foldl_totalChars,
      (hp.map fun m => if m.userId = "" then 0 else charContrib m).sum_eq]
  · intro uid
    by_cases huid : uid = ""
    · rw [huid, lookupStats_empty_uid, lookupStats_empty_uid]
    · rw [lookupStats_decomposed msgs uid huid,
        lookupStats_decomposed msgs' uid huid]
      have hfp := hp.filter (fun m => m.userId == uid)
      cases hfl : msgs.filter (fun m => m.userId == uid) with
      | nil =>
        rw [hfl] at hfp
        rw [List.Perm.eq_nil hfp.symm]
        rfl
      | cons x xs =>
        cases hfl' : msgs'.filter (fun m => m.userId == uid) with
        | nil =>
          rw [hfl, hfl'] at hfp
          exact absurd hfp.length_eq (by simp)
        | cons y ys =>
          rw [hfl, hfl'] at hfp
          rw [applyOpt_foldl_cons, applyOpt_foldl_cons]
          show some (observedStats (setRatios
              (msgs.foldl processMessage initialStatsState).totalEmojiCount
              ((x :: xs).foldl applyMessage (getInitialUserStats x))))
            = some (observedStats (setRatios
              (msgs'.foldl processMessage initialStatsState).totalEmojiCount
              ((y :: ys).foldl applyMessage (getInitialUserStats y))))
          rw [show (msgs'.foldl processMessage
              initialStatsState).totalEmojiCount
            = (msgs.foldl processMessage initialStatsState).totalEmojiCount
            from htE.symm]
          refine congrArg some (observed_setRatios_eq _ _ _ ?_ ?_ ?_ ?_ ?_ ?_ ?_)
          · rw [foldl_applyMessage_messageCount,
              foldl_applyMessage_messageCount, hfp.length_eq]
            rfl
          · rw [foldl_applyMessage_charCount, foldl_applyMessage_charCount,
              (hfp.map charContrib).sum_eq]
            rfl
          · rw [foldl_applyMessage_replyCount, foldl_applyMessage_replyCount,
              (hfp.map fun m => replyEls m.elements).sum_eq]
            rfl
          · rw [foldl_applyMessage_atCount, foldl_applyMessage_atCount,
              (hfp.map fun m => atEls m.elements).sum_eq]
            rfl
          · rw [foldl_applyMessage_emojiCount, foldl_applyMessage_emojiCount,
              (hfp.map fun m => emojiEls m.elements).sum_eq]
            rfl
          · rw [foldl_applyMessage_nightMessages,
              foldl_applyMessage_nightMessages, (hfp.map nightContrib).sum_eq]
            rfl
          · have hlx : (getInitialUserStats x).activeHours.length = 24 := by
              simp [getInitialUserStats]
            have hly : (getInitialUserStats y).activeHours.length = 24 := by
              simp [getInitialUserStats]
            have hl1 : ((x :: xs).foldl applyMessage
                (getInitialUserStats x)).activeHours.length = 24 := by
              rw [foldl_applyMessage_activeHours_length]
              exact hlx
            have hl2 : ((y :: ys).foldl applyMessage
                (getInitialUserStats y)).activeHours.length = 24 := by
              rw [foldl_applyMessage_activeHours_length]
              exact hly
            refine List.ext_getElem (by rw [hl1, hl2]) ?_
            intro i hi1 hi2
            rw [← List.getD_eq_getElem _ 0 hi1, ← List.getD_eq_getElem _ 0 hi2,
              foldl_applyMessage_activeHours_getD _ _ hlx i,
              foldl_applyMessage_activeHours_getD _ _ hly i,
              hfp.countP_eq]
            rfl

def c8MsgA : StoredMessage :=
  { id := "m0", platform := "qq", userId := "7", username := "Seven",
    content := "hey", hour := 3, time := 5, elements := [⟨"text", "hi"⟩] }

def c8MsgB : StoredMessage :=
  { id := "m1", platform := "qq", userId := "9", username := "Nine",
    content := "yo", hour := 22, time := 9, elements := [⟨"reply", ""⟩] }

/-- Witness for C8 at a concrete transposition. -/
theorem C8_witness :
    [c8MsgA, c8MsgB].Perm [c8MsgB, c8MsgA]
      ∧ ([c8MsgA, c8MsgB].length = [c8MsgB, c8MsgA].length
        ∧ (calculateBasicStats [c8MsgA, c8MsgB]).totalChars
          = (calculateBasicStats [c8MsgB, c8MsgA]).totalChars
        ∧ (calculateBasicStats [c8MsgA, c8MsgB]).totalEmojiCount
          = (calculateBasicStats [c8MsgB, c8MsgA]).totalEmojiCount
        ∧ ∀ uid,
            (lookupStats (calculateBasicStats [c8MsgA, c8MsgB]) uid).map
              observedStats
            = (lookupStats (calculateBasicStats [c8MsgB, c8MsgA]) uid).map
              observedStats) :=
  ⟨List.Perm.swap c8MsgB c8MsgA [],
   C8_permutation_invariant _ _ (List.Perm.swap c8MsgB c8MsgA [])⟩

/-! # Claim C4 (corrected) -/

theorem mem_insertUserDesc (x : UserStats) (l : List UserStats)
    (z : UserStats) (h : z ∈ insertUserDesc x l) : z = x ∨ z ∈ l := by
  induction l with
  | nil => simpa [insertUserDesc] using h
  | cons y t ih =>
    unfold insertUserDesc at h
    by_cases hxy : x.messageCount < y.messageCount
    · rw [if_pos hxy] at h
      rcases List.mem_cons.mp h with h | h
      · exact Or.inr (h ▸ List.mem_cons_self _ _)
      · rcases ih h with h | h
        · exact Or.inl h
        · exact Or.inr (List.mem_cons_of_mem _ h)
    · rw [if_neg hxy] at h
      rcases List.mem_cons.mp h with h | h
      · exact Or.inl h
      · exact Or.inr h

theorem pairwise_insertUserDesc (x : UserStats) (l : List UserStats)
    (h : List.Pairwise (fun a b => b.messageCount ≤ a.messageCount) l) :
    List.Pairwise (fun a b => b.messageCount ≤ a.messageCount)
      (insertUserDesc x l) := by
  induction l with
  | nil => simp [insertUserDesc]
  | cons y t ih =>
    unfold insertUserDesc
    by_cases hxy : x.messageCount < y.messageCount
    · rw [if_pos hxy]
      rw [List.pairwise_cons] at h ⊢
      refine ⟨?_, ih h.2⟩
      intro z hz
      rcases mem_insertUserDesc x t z hz with hz | hz
      · rw [hz]
        omega
      · exact h.1 z hz
    · rw [if_neg hxy]
      rw [List.pairwise_cons] at h
      rw [List.pairwise_cons]
      refine ⟨?_, List.pairwise_cons.mpr h⟩
      intro z hz
      rcases List.mem_cons.mp hz with hz | hz
      · rw [hz]
        omega
      · have := h.1 z hz
        omega

theorem pairwise_sortUsersDesc (l : List UserStats) :
    List.Pairwise (fun a b => b.messageCount ≤ a.messageCount)
      (sortUsersDesc l) := by
  induction l with
  | nil => simp [sortUsersDesc]
  | cons x t ih => exact pairwise_insertUserDesc x (sortUsersDesc t) ih

theorem filter_insertUserDesc (x : UserStats) (l : List UserStats) (v : Nat) :
    (insertUserDesc x l).filter (fun u => u.messageCount == v)
      = if x.messageCount = v then
          x :: l.filter (fun u => u.messageCount == v)
        else l.filter (fun u => u.messageCount == v) := by
  induction l with
  | nil =>
    by_cases hx : x.messageCount = v
    · simp [insertUserDesc, List.filter_cons, hx]
    · simp [insertUserDesc, List.filter_cons, hx,
        beq_eq_false_iff_ne.mpr hx]
  | cons y t ih =>
    unfold insertUserDesc
    by_cases hxy : x.messageCount < y.messageCount
    · rw [if_pos hxy, List.filter_cons, List.filter_cons]
      by_cases hy : y.messageCount = v
      · have hx : ¬ x.messageCount = v := by omega
        simp [hy, ih, hx]
      · simp only [beq_eq_false_iff_ne.mpr hy, Bool.false_eq_true, if_false,
          ih]
    · rw [if_neg hxy, List.filter_cons]
      by_cases hx : x.messageCount = v
      · simp [hx]
      · simp [hx, beq_eq_false_iff_ne.mpr hx]

theorem filter_sortUsersDesc (l : List UserStats) (v : Nat) :
    (sortUsersDesc l).filter (fun u => u.messageCount == v)
      = l.filter (fun u => u.messageCount == v) := by
  induction l with
  | nil => rfl
  | cons x t ih =>
    show (insertUserDesc x (sortUsersDesc t)).filter _ = _
    rw [filter_insertUserDesc, List.filter_cons]
    by_cases hx : x.messageCount = v
    · simp [hx, ih]
    · simp [hx, beq_eq_false_iff_ne.mpr hx, ih]

/-- First-appearance order of (non-empty) sender ids in the input. -/
def firstSeenIds (msgs : List StoredMessage) : List String :=
  msgs.foldl
    (fun acc m =>
      if m.userId == "" || acc.contains m.userId then acc
      else acc ++ [m.userId]) []

/-- Position of a user id in first-appearance order. -/
def firstSeenRank (msgs : List StoredMessage) (uid : String) : Nat :=
  (firstSeenIds msgs).findIdx (fun s => s == uid)

/-- The report's ranked user list (the stable descending sort of the
`Object.values` enumeration, truncated to the configured size). -/
def reportRanked (cfg : AnalysisConfig) (msgs : List StoredMessage) :
    List UserStats :=
  (sortUsersDesc (jsValues (calculateBasicStats msgs))).take
    cfg.maxUsersInReport

/-- The ordering property claim C4 asserts of the report's ranked list:
descending message count with ties in first-appearance order. -/
@[reducible]
def claimC4TieBreak (cfg : AnalysisConfig) (msgs : List StoredMessage) :
    Prop :=
  List.Pairwise
    (fun a b =>
      b.messageCount < a.messageCount
        ∨ (a.messageCount = b.messageCount
            ∧ firstSeenRank msgs a.userId < firstSeenRank msgs b.userId))
    (reportRanked cfg msgs)

def c4MsgA : StoredMessage :=
  { id := "m0", platform := "qq", userId := "2", username := "U2",
    content := "x", hour := 1, time := 0, elements := [] }

def c4MsgB : StoredMessage :=
  { id := "m1", platform := "qq", userId := "1", username := "U1",
    content := "y", hour := 1, time := 0, elements := [] }

set_option maxRecDepth 16000 in
/-- C4 counterexample: user "2" speaks before user "1" and both send one
message, yet the ranked list is ["1", "2"] — JavaScript object property
enumeration puts integer-like keys in ascending numeric order before the
stable sort runs, so the tie is not broken by first appearance. -/
theorem C4_counterexample :
    (reportRanked ⟨10⟩ [c4MsgA, c4MsgB]).map (fun u => u.userId) = ["1", "2"]
      ∧ firstSeenIds [c4MsgA, c4MsgB] = ["2", "1"]
      ∧ ¬ claimC4TieBreak ⟨10⟩ [c4MsgA, c4MsgB] := by
  decide

/-- C4 (amended): the report's ranked list is the stable descending sort by
message count of the `Object.values` enumeration of the user record —
array-index-like user ids in ascending numeric order first, then remaining
ids in first-appearance order.  Hence it is sorted by message count
descending, and users with equal counts appear in that enumeration order
(not in pure first-appearance order). -/
theorem C4_rank_order (cfg : AnalysisConfig) (msgs : List StoredMessage)
    (gid now : String) (r1 : Except LLMError (List SummaryTopic))
    (r2 : Except LLMError (List UserTitle))
    (r3 : Except LLMError (List GoldenQuote)) :
    (analyzeGroupMessages cfg msgs gid now r1 r2 r3).userStats
        = (sortUsersDesc (jsValues (calculateBasicStats msgs))).take
            cfg.maxUsersInReport
      ∧ List.Pairwise (fun a b => b.messageCount ≤ a.messageCount)
          (sortUsersDesc (jsValues (calculateBasicStats msgs)))
      ∧ ∀ v, (sortUsersDesc (jsValues (calculateBasicStats msgs))).filter
              (fun u => u.messageCount == v)
          = (jsValues (calculateBasicStats msgs)).filter
              (fun u => u.messageCount == v) :=
  ⟨rfl, pairwise_sortUsersDesc _, fun v => filter_sortUsersDesc _ v⟩

/-! # Claim C3 -/

theorem findSome?_append_of_none {α β : Type} (f : α → Option β)
    (l₁ l₂ : List α) (h : ∀ a ∈ l₁, f a = none) :
    (l₁ ++ l₂).findSome? f = l₂.findSome? f := by
  induction l₁ with
  | nil => rfl
  | cons a t ih =>
    rw [List.cons_append, List.findSome?_cons, h a (List.mem_cons_self _ _),
      ih fun b hb => h b (List.mem_cons_of_mem _ hb)]

theorem find?_append_first_match {α : Type} (p : α → Bool) (l₁ : List α)
    (x : α) (l₂ : List α) (h₁ : ∀ a ∈ l₁, p a = false) (hx : p x = true) :
    (l₁ ++ x :: l₂).find? p = some x := by
  induction l₁ with
  | nil => simp [List.find?_cons, hx]
  | cons a t ih =>
    rw [List.cons_append, List.find?_cons, h₁ a (List.mem_cons_self _ _),
      ih fun b hb => h₁ b (List.mem_cons_of_mem _ hb)]

theorem find?_eq_none_of_all {α : Type} (p : α → Bool) (l : List α)
    (h : ∀ a ∈ l, p a = false) : l.find? p = none := by
  induction l with
  | nil => rfl
  | cons a t ih =>
    rw [List.find?_cons, h a (List.mem_cons_self _ _),
      ih fun b hb => h b (List.mem_cons_of_mem _ hb)]

theorem resolveModel_configured (m : String) (f : Option (List String))
    (hm : ¬ m = "") :
    resolveModel (some m) f initialLLMState
      = .ok (m, ⟨[], some m⟩, 0) := by
  unfold resolveModel initialLLMState
  simp [truthyStr, beq_eq_false_iff_ne.mpr hm]

theorem resolveModel_marker_priority (ids pre : List String) (t : String)
    (post ids1 : List String) (id : String) (ids2 : List String)
    (hpref : preferredModels = pre ++ t :: post)
    (hpre : ∀ t' ∈ pre, ∀ i ∈ ids, strIncludes i t' = false)
    (hids : ids = ids1 ++ id :: ids2)
    (hids1 : ∀ i ∈ ids1, strIncludes i t = false)
    (hid : strIncludes id t = true) (hne : ¬ id = "") :
    resolveModel none (some ids) initialLLMState
      = .ok (id, ⟨ids, some id⟩, 1) := by
  have hnonempty : ids.isEmpty = false := by
    rw [hids]
    cases ids1 <;> rfl
  have hsel : selectModel none ids = some id := by
    unfold selectModel
    rw [show truthyStr none = false from rfl]
    simp only [Bool.false_eq_true, if_false, hnonempty]
    rw [hpref,
      findSome?_append_of_none _ pre (t :: post) (fun t' ht' =>
        find?_eq_none_of_all _ ids fun i hi => hpre t' ht' i hi),
      List.findSome?_cons,
      show ids.find? (fun i => strIncludes i t) = some id by
        rw [hids]
        exact find?_append_first_match _ ids1 id ids2 hids1 hid]
  unfold resolveModel initialLLMState
  simp only [truthyStr, List.isEmpty_nil, if_true, hsel,
    beq_eq_false_iff_ne.mpr hne, Bool.false_eq_true, if_false]

theorem resolveModel_no_marker (ids : List String) (id : String)
    (rest : List String) (hids : ids = id :: rest) (hne : ¬ id = "")
    (hnone : ∀ i ∈ ids, ∀ t ∈ preferredModels, strIncludes i t = false) :
    resolveModel none (some ids) initialLLMState
      = .ok (id, ⟨ids, some id⟩, 1) := by
  have hsel : selectModel none ids = some id := by
    unfold selectModel
    rw [show truthyStr none = false from rfl]
    simp only [Bool.false_eq_true, if_false,
      show ids.isEmpty = false by rw [hids]; rfl]
    rw [show preferredModels.findSome?
          (fun target => ids.find? fun i => strIncludes i target) = none by
        apply List.findSome?_eq_none_iff.mpr
        intro t ht
        exact find?_eq_none_of_all _ ids fun i hi => hnone i hi t ht,
      hids]
    rfl
  unfold resolveModel initialLLMState
  simp only [truthyStr, List.isEmpty_nil, if_true, hsel,
    beq_eq_false_iff_ne.mpr hne, Bool.false_eq_true, if_false]

theorem resolveModel_memoized (cfgModel : Option String)
    (f f' : Option (List String)) (s : LLMState) (m : String) (s' : LLMState)
    (n : Nat) (h : resolveModel cfgModel f s = .ok (m, s', n)) :
    resolveModel cfgModel f' s' = .ok (m, s', 0) := by
  have hres : s'.resolvedModel = some m := by
    unfold resolveModel at h
    split at h
    next m0 heq =>
      simp only [Except.ok.injEq, Prod.mk.injEq] at h
      rw [← h.2.1, ← h.1, heq]
    next heq =>
      split at h
      next hc =>
        simp only [Except.ok.injEq, Prod.mk.injEq] at h
        cases hcm : cfgModel with
        | none => rw [hcm] at hc; exact absurd hc (by simp [truthyStr])
        | some x =>
          rw [← h.2.1, hcm]
          rw [hcm] at h
          rw [← h.1]
          rfl
      next hc =>
        dsimp only at h
        split at h
        next hf => exact absurd h (by simp)
        next models hf =>
          split at h
          next mm hsel =>
            split at h
            next hmm => exact absurd h (by simp)
            next hmm =>
              simp only [Except.ok.injEq, Prod.mk.injEq] at h
              rw [← h.2.1, ← h.1]
          next hsel => exact absurd h (by simp)
  unfold resolveModel
  rw [hres]

/-- C3: model resolution follows the stated order — a (truthy) configured
identifier is returned at once with zero discovery requests; otherwise the
advertised list is fetched once and scanned against the marker preference
list in priority order, taking the first advertised identifier containing
the first matching marker (`["foo-7b", "qwen-14b"]` with the built-in
preference list resolves to `"qwen-14b"`); with no marker match the first
advertised identifier is returned; and every successful resolution is
memoized, so a later call returns the same identifier with zero further
discovery requests whatever the transport would now answer. -/
theorem C3_model_resolution :
    (∀ (m : String) (f : Option (List String)), ¬ m = "" →
        resolveModel (some m) f initialLLMState = .ok (m, ⟨[], some m⟩, 0))
      ∧ (∀ (ids pre : List String) (t : String) (post ids1 : List String)
          (id : String) (ids2 : List String),
          preferredModels = pre ++ t :: post →
          (∀ t' ∈ pre, ∀ i ∈ ids, strIncludes i t' = false) →
          ids = ids1 ++ id :: ids2 →
          (∀ i ∈ ids1, strIncludes i t = false) →
          strIncludes id t = true → ¬ id = "" →
          resolveModel none (some ids) initialLLMState
            = .ok (id, ⟨ids, some id⟩, 1))
      ∧ (∀ (ids : List String) (id : String) (rest : List String),
          ids = id :: rest → ¬ id = "" →
          (∀ i ∈ ids, ∀ t ∈ preferredModels, strIncludes i t = false) →
          resolveModel none (some ids) initialLLMState
            = .ok (id, ⟨ids, some id⟩, 1))
      ∧ (∀ (cfgModel : Option String) (f f' : Option (List String))
          (s : LLMState) (m : String) (s' : LLMState) (n : Nat),
          resolveModel cfgModel f s = .ok (m, s', n) →
          resolveModel cfgModel f' s' = .ok (m, s', 0))
      ∧ resolveModel none (some ["foo-7b", "qwen-14b"]) initialLLMState
          = .ok ("qwen-14b", ⟨["foo-7b", "qwen-14b"], some "qwen-14b"⟩, 1) := by
  refine ⟨resolveModel_configured, resolveModel_marker_priority,
    resolveModel_no_marker, resolveModel_memoized, ?_⟩
  rfl

/-- Witness for C3: the configured-model clause and the memoization clause
applied at concrete inputs. -/
theorem C3_witness :
    resolveModel (some "my-model") none initialLLMState
        = .ok ("my-model", ⟨[], some "my-model"⟩, 0)
      ∧ resolveModel (some "my-model") (some ["x"]) ⟨[], some "my-model"⟩
        = .ok ("my-model", ⟨[], some "my-model"⟩, 0) :=
  ⟨C3_model_resolution.1 "my-model" none (by decide),
   C3_model_resolution.2.2.2.1 (some "my-model") none (some ["x"])
     initialLLMState "my-model" ⟨[], some "my-model"⟩ 0
     (C3_model_resolution.1 "my-model" none (by decide))⟩

/-! # Claim C6 -/

/-- C6: for any completion response, any repair pass and any decoder — if
the trimmed response text is empty, the extraction operation returns the
empty result list (no block matching, no `MissingStructuredBlock`); if it is
non-empty but contains no fenced YAML block, the task fails with
`MissingStructuredBlock`. -/
theorem C6_empty_and_missing_block (resp : String) (clean : String → String)
    (decode : String → Except LLMError (Option (List SummaryTopic))) :
    (jsTrim resp = "" →
        extractionTask SummaryTopic (.ok resp) clean decode = .ok [])
      ∧ (¬ jsTrim resp = "" → findYamlBlock (jsTrim resp) = none →
        extractionTask SummaryTopic (.ok resp) clean decode
          = .error .missingYamlBlock) := by
  constructor
  · intro h
    unfold extractionTask callLLM
    dsimp only
    rw [h]
    rfl
  · intro h hb
    unfold extractionTask callLLM
    dsimp only
    rw [if_neg h, hb]

/-- Witness for C6: a whitespace-only response and a block-free response. -/
theorem C6_witness :
    extractionTask SummaryTopic (.ok "   ")
        (fun s => s) (fun _ => .error (.decodeError "d")) = .ok []
      ∧ extractionTask SummaryTopic (.ok "hello")
        (fun s => s) (fun _ => .error (.decodeError "d"))
        = .error .missingYamlBlock :=
  ⟨(C6_empty_and_missing_block "   " (fun s => s)
      (fun _ => .error (.decodeError "d"))).1 (by decide),
   (C6_empty_and_missing_block "hello" (fun s => s)
      (fun _ => .error (.decodeError "d"))).2 (by decide) (by decide)⟩

/-- Witness for the amended C5 theorem at a concrete input. -/
theorem C5_witness :
    ¬ c5Msg.userId = ""
      ∧ ((calculateBasicStats ([] ++ [c5Msg])).totalChars
            = (calculateBasicStats []).totalChars
              + (if (pureTextOf c5Msg.elements).length = 0 then
                  c5Msg.content.length
                 else (pureTextOf c5Msg.elements).length)
          ∧ userCharCount ([] ++ [c5Msg]) c5Msg.userId
            = userCharCount [] c5Msg.userId
              + (if (pureTextOf c5Msg.elements).length = 0 then
                  c5Msg.content.length
                 else (pureTextOf c5Msg.elements).length)) :=
  ⟨by decide, C5_char_count_fallback [] c5Msg (by decide)⟩

/-- A message whose sender id is empty. -/
def c10Ghost : StoredMessage :=
  { id := "m", platform := "qq", userId := "", username := "ghost",
    content := "boo", hour := 0, time := 0, elements := [] }

/-- Witness for C10 at a concrete input. -/
theorem C10_witness :
    c10Ghost.userId = ""
      ∧ (calculateBasicStats ([] ++ c10Ghost :: [])
            = calculateBasicStats ([] ++ [])
          ∧ (analyzeGroupMessages ⟨10⟩ ([] ++ c10Ghost :: []) "g" "now"
              (.ok []) (.ok []) (.ok [])).totalMessages
            = (([] : List StoredMessage) ++ []).length + 1) :=
  ⟨rfl, C10_empty_sender_skipped [] [] c10Ghost ⟨10⟩ "g" "now"
    (.ok []) (.ok []) (.ok []) rfl⟩
